import Mathlib

/-!
Verification of the impolite login manager (greetd client).

Shallow embedding of src/src/greetd.rs and src/src/main.rs (plus the
alternative component implementation in src/src/impolite/impolite.rs).
Rust strings (the Str alias for Arc of str) are modelled as String; wire
text is modelled as its character sequence (List Char) and wire bytes as
List Nat with values below 256.  Rust functions that can hit a todo or
unreachable macro are modelled with an explicit panic result constructor.
-/

/-! ## Wire data model (src/src/greetd.rs lines 24 to 66) -/

/-- ErrorType from greetd.rs.  Note: the Rust derive on this enum carries
no rename-all attribute, so serde uses the variant names verbatim
(AuthError, Error) on the wire. -/
inductive ErrorType
  | authError
  | error
deriving DecidableEq

/-- AuthMessageType from greetd.rs.  Like ErrorType it has no rename-all
attribute, so serde uses Visible, Secret, Info, Error verbatim. -/
inductive AuthMessageType
  | visible
  | secret
  | info
  | error
deriving DecidableEq

/-- Response from greetd.rs: internally tagged (tag field named type) with
snake case variant names, per the serde attributes on the enum. -/
inductive Response
  | success
  | error (error_type : ErrorType) (description : String)
  | authMessage (auth_message_type : AuthMessageType) (auth_message : String)
deriving DecidableEq

/-- Request from greetd.rs: internally tagged (tag field named type) with
snake case variant names. -/
inductive Request
  | createSession (username : String)
  | postAuthMessageResponse (response : Option String)
  | startSession (command : List String) (env : List String)
  | cancelSession
deriving DecidableEq

/-! ## Authentication state machine (src/src/main.rs lines 122 to 174) -/

/-- FormState from main.rs. -/
inductive FormState
  | idle
  | createdSession
  | loginFailed (error_type : ErrorType) (description : String)
  | pickingDesktop
deriving DecidableEq

/-- FormEffect from main.rs. -/
inductive FormEffect
  | none
  | sendPassword
  | focusDesktopPicker
deriving DecidableEq

/-- Result of one FormState::update call; the todo arms of the Rust match
are modelled by the panic constructor. -/
inductive UpdateResult
  | ok (state : FormState) (effect : FormEffect)
  | panic
deriving DecidableEq

/-- FormState::update from main.rs lines 136 to 174, arm for arm in source
order.  The wildcard Error arm of the source (its eighth arm) can only be
reached with PickingDesktop, every other state having been consumed by
earlier arms, and is translated accordingly. -/
def FormState.update : FormState → Response → UpdateResult
  | .idle, _ => .ok .idle .none
  | .createdSession, .success => .ok .pickingDesktop .focusDesktopPicker
  | .createdSession, .error et d => .ok (.loginFailed et d) .none
  | .createdSession, .authMessage .secret _ => .ok .createdSession .sendPassword
  | .createdSession, .authMessage _ _ => .ok .createdSession .none
  | .loginFailed _ _, .success => .ok .pickingDesktop .none
  | .loginFailed _ _, _ => .panic
  | .pickingDesktop, .error et d => .ok (.loginFailed et d) .none
  | .pickingDesktop, _ => .ok .pickingDesktop .none

/-- Focus from main.rs. -/
inductive Focus
  | usernameField
  | passwordField
  | desktopPicker
deriving DecidableEq

/-- Field from main.rs (indices into the two element input array); the
source name Field is taken by Mathlib, hence the prefix. -/
inductive FormField
  | username
  | password
deriving DecidableEq

/-- The Model struct from main.rs, restricted to the fields the update
function reads or writes.  The two element input array indexed by Field is
modelled as the two named fields username and password (each input is
modelled by its text value); cli args, the request channel handle and the
desktop picker list state are runtime handles that update never replaces,
and requests pushed onto the channel are returned explicitly by the step
function below. -/
structure Model where
  username : String
  password : String
  focus : Focus
  form_state : FormState
  last_response : Option Response
  desktops : List String
deriving DecidableEq

/-- Msg from main.rs (the Error payload, a report, is dropped; the field
update payload is the new text of the input). -/
inductive Msg
  | quit
  | error
  | greetdRes (res : Response)
  | fieldUpdate (field : FormField) (input : String)
  | focusOn (focus : Focus)
  | submitLogin
  | nothing
  | startShell
deriving DecidableEq

/-- Result of one call of the update function of main.rs: the next model
plus the requests pushed onto the request channel during the step, or a
panic (the unreachable arm for Quit, the panic arm for Error, and any todo
reached through FormState::update). -/
inductive StepRes
  | ok (model : Model) (sent : List Request)
  | panic
deriving DecidableEq

/-- The update function from main.rs lines 462 to 534.  The StartShell arm
writes the StartSession request (the source spells the first field cmd at
line 521 although the struct declares it as command). -/
def Model.update (model : Model) : Msg → StepRes
  | .quit => .panic
  | .error => .panic
  | .greetdRes res =>
    match model.form_state.update res with
    | .panic => .panic
    | .ok form_state eff =>
      let sent : List Request :=
        match eff with
        | .none => []
        | .sendPassword => [.postAuthMessageResponse (some model.password)]
        | .focusDesktopPicker => []
      let focus : Focus :=
        match eff with
        | .focusDesktopPicker => .desktopPicker
        | _ => model.focus
      .ok { model with form_state := form_state, focus := focus,
                       last_response := some res } sent
  | .fieldUpdate f s =>
    .ok (match f with
         | .username => { model with username := s }
         | .password => { model with password := s }) []
  | .focusOn f => .ok { model with focus := f } []
  | .submitLogin =>
    .ok { model with form_state := .createdSession } [.createSession model.username]
  | .nothing => .ok model []
  | .startShell => .ok model [.startSession ["/bin/sh"] []]

/-- Requests emitted by a step (none when the step panics). -/
def StepRes.sent : StepRes → List Request
  | .ok _ sent => sent
  | .panic => []

/-- Drive the update function over a list of messages, collecting the
requests emitted at each step; none as soon as a step panics. -/
def runTrace : Model → List Msg → Option (Model × List (List Request))
  | m, [] => some (m, [])
  | m, msg :: rest =>
    match m.update msg with
    | .panic => none
    | .ok m' sent => (runTrace m' rest).map fun p => (p.1, sent :: p.2)

/-- Modelled from the spec: the caller intent cancel() of section 6, which
sends CancelSession and transitions the machine to Idle at once, without
waiting for a Response.  Missing from the source: main.rs declares the
Request::CancelSession wire variant but no Msg variant or update arm ever
sends it, so the intent is modelled from the spec's cancellation rule. -/
def Model.cancel (model : Model) : Model × List Request :=
  ({ model with form_state := .idle }, [.cancelSession])

/-! ## Alternative implementation (src/src/impolite/impolite.rs) -/

/-- FormState from impolite.rs. -/
inductive ImpoliteFormState
  | waitingForSession
  | waitingForSessionSuccess
  | waitingForLoginSuccess
  | failed (reason : String)
  | pickingDesktop
  | done
deriving DecidableEq

/-- Result of the GreetdEvent arm of Impolite::update. -/
inductive ImpoliteStep
  | ok (state : ImpoliteFormState) (sent : List Request)
  | panic
deriving DecidableEq

/-- The match on (form state, response) inside the GreetdEvent arm of
Impolite::update, impolite.rs lines 190 to 280, arm for arm; the password
argument is the password prompt text the WaitingForSessionSuccess arm
answers with.  Every todo arm is the panic constructor. -/
def impoliteGreetdUpdate (password : String) :
    ImpoliteFormState → Response → ImpoliteStep
  | .waitingForSession, _ => .ok .waitingForSession []
  | .waitingForSessionSuccess, .success =>
    .ok .waitingForLoginSuccess [.postAuthMessageResponse (some password)]
  | .waitingForSessionSuccess, .error _ _ => .panic
  | .waitingForSessionSuccess, .authMessage _ _ => .panic
  | .failed _, .success => .panic
  | .failed _, .error _ _ => .panic
  | .failed _, .authMessage _ _ => .panic
  | .pickingDesktop, .success => .panic
  | .pickingDesktop, .error _ _ => .panic
  | .pickingDesktop, .authMessage _ _ => .panic
  | .done, .success => .panic
  | .done, .error _ _ => .panic
  | .done, .authMessage _ _ => .panic
  | .waitingForLoginSuccess, .success => .ok .pickingDesktop []
  | .waitingForLoginSuccess, .error _ _ => .panic
  | .waitingForLoginSuccess, .authMessage _ _ => .panic

/-! ## Wire codec: serialization (greetd.rs greetd_write and the serde
derives; serde_json compact output) -/

/-- Lowercase hexadecimal digit, as serde_json emits in control character
escapes. -/
def hexDigit (n : Nat) : Char :=
  if n < 10 then Char.ofNat (48 + n) else Char.ofNat (87 + n)

/-- serde_json escaping of a single character inside a JSON string: quote
and backslash get a backslash escape, the five short control escapes are
used where they exist, every other control character becomes a four digit
unicode escape, and everything else (non ASCII included) passes through. -/
def jsonEscapeChar (c : Char) : List Char :=
  if c = '"' then ['\\', '"']
  else if c = '\\' then ['\\', '\\']
  else if c = Char.ofNat 8 then ['\\', 'b']
  else if c = '\t' then ['\\', 't']
  else if c = '\n' then ['\\', 'n']
  else if c = Char.ofNat 12 then ['\\', 'f']
  else if c = '\r' then ['\\', 'r']
  else if c.toNat < 32 then
    ['\\', 'u', '0', '0', hexDigit (c.toNat / 16), hexDigit (c.toNat % 16)]
  else [c]

/-- serde_json output for a string value, quotes included. -/
def jsonString (s : String) : List Char :=
  '"' :: (s.data.map jsonEscapeChar).flatten ++ ['"']

/-- serde_json output for a sequence of strings. -/
def jsonStringArray (xs : List String) : List Char :=
  '[' :: List.intercalate [','] (xs.map jsonString) ++ [']']

/-- serde_json::to_string of a Request (greetd.rs lines 24 to 38):
internally tagged with tag field type, snake case variant names, fields in
declaration order; an absent optional response serializes as null. -/
def Request.serialize : Request → List Char
  | .createSession username =>
    "\x7b\"type\":\"create_session\",\"username\":".data
      ++ jsonString username ++ "\x7d".data
  | .postAuthMessageResponse response =>
    "\x7b\"type\":\"post_auth_message_response\",\"response\":".data
      ++ (match response with
          | none => "null".data
          | some s => jsonString s)
      ++ "\x7d".data
  | .startSession command env =>
    "\x7b\"type\":\"start_session\",\"command\":".data
      ++ jsonStringArray command
      ++ ",\"env\":".data ++ jsonStringArray env ++ "\x7d".data
  | .cancelSession => "\x7b\"type\":\"cancel_session\"\x7d".data

/-- UTF-8 encoding of one character (what String::as_bytes yields per
character of the serialized message). -/
def utf8EncodeChar (c : Char) : List Nat :=
  let n := c.toNat
  if n < 128 then [n]
  else if n < 2048 then [192 + n / 64, 128 + n % 64]
  else if n < 65536 then [224 + n / 4096, 128 + n / 64 % 64, 128 + n % 64]
  else [240 + n / 262144, 128 + n / 4096 % 64, 128 + n / 64 % 64, 128 + n % 64]

/-- UTF-8 encoding of a character sequence. -/
def utf8Encode (cs : List Char) : List Nat :=
  (cs.map utf8EncodeChar).flatten

/-- u32::to_ne_bytes on the build host (x86-64, little endian); the
reduction modulo 2 to the 32 is what the as u32 cast in greetd_write
performs on the payload length. -/
def u32ToNeBytes (n : Nat) : List Nat :=
  [n % 256, n / 256 % 256, n / 65536 % 256, n / 16777216 % 256]

/-- u32::from_ne_bytes on the build host, inverse of the above on 4 byte
lists; read_exact guarantees the argument has length 4. -/
def u32FromNeBytes : List Nat → Nat
  | [b0, b1, b2, b3] => b0 + 256 * b1 + 65536 * b2 + 16777216 * b3
  | _ => 0

/-- greetd_write from greetd.rs lines 114 to 132: the bytes pushed onto
the socket for one request, a 4 byte native endian length prefix followed
by the UTF-8 JSON payload. -/
def greetd_write (msg : Request) : List Nat :=
  let bytes := utf8Encode msg.serialize
  u32ToNeBytes bytes.length ++ bytes

/-! ## Wire codec: JSON values and parsing (serde_json::from_str) -/

/-- JSON values.  Numbers are modelled as integers: no message of the
greetd protocol carries a number, and the parser below rejects fractions
and exponents. -/
inductive Json
  | null
  | bool (b : Bool)
  | num (n : Int)
  | str (s : String)
  | arr (elems : List Json)
  | obj (fields : List (String × Json))

/-- JSON whitespace skipping. -/
def skipWs : List Char → List Char
  | c :: cs =>
    if c = ' ' ∨ c = '\t' ∨ c = '\n' ∨ c = '\r' then skipWs cs else c :: cs
  | [] => []

/-- Value of a hexadecimal digit. -/
def hexVal (c : Char) : Option Nat :=
  if '0' ≤ c ∧ c ≤ '9' then some (c.toNat - 48)
  else if 'a' ≤ c ∧ c ≤ 'f' then some (c.toNat - 87)
  else if 'A' ≤ c ∧ c ≤ 'F' then some (c.toNat - 70)
  else none

/-- Body of a JSON string after the opening quote: returns the decoded
characters and the input after the closing quote.  Escapes are the eight
short ones plus four digit unicode escapes; surrogate values are rejected
(surrogate pair decoding is not needed by any protocol message). -/
def parseStringBody : Nat → List Char → Option (List Char × List Char)
  | _, [] => none
  | fuel + 1, c :: cs =>
    if c = '"' then some ([], cs)
    else if c = '\\' then
      match cs with
      | [] => none
      | e :: cs' =>
        let decoded : Option (Char × List Char) :=
          if e = '"' then some ('"', cs')
          else if e = '\\' then some ('\\', cs')
          else if e = '/' then some ('/', cs')
          else if e = 'b' then some (Char.ofNat 8, cs')
          else if e = 'f' then some (Char.ofNat 12, cs')
          else if e = 'n' then some ('\n', cs')
          else if e = 'r' then some ('\r', cs')
          else if e = 't' then some ('\t', cs')
          else if e = 'u' then
            match cs' with
            | h1 :: h2 :: h3 :: h4 :: cs'' =>
              match hexVal h1, hexVal h2, hexVal h3, hexVal h4 with
              | some v1, some v2, some v3, some v4 =>
                let n := ((v1 * 16 + v2) * 16 + v3) * 16 + v4
                if 55296 ≤ n ∧ n < 57344 then none
                else some (Char.ofNat n, cs'')
              | _, _, _, _ => none
            | _ => none
          else none
        match decoded with
        | none => none
        | some (d, rest) =>
          (parseStringBody fuel rest).map fun p => (d :: p.1, p.2)
    else if c.toNat < 32 then none
    else (parseStringBody fuel cs).map fun p => (c :: p.1, p.2)
  | 0, _ :: _ => none

/-- Decimal digits prefix of the input. -/
def parseDigits : List Char → List Nat × List Char
  | c :: cs =>
    if '0' ≤ c ∧ c ≤ '9' then
      let p := parseDigits cs
      ((c.toNat - 48) :: p.1, p.2)
    else ([], c :: cs)
  | [] => ([], [])

/-- Natural number from a digit list. -/
def digitsToNat (ds : List Nat) : Nat :=
  ds.foldl (fun acc d => acc * 10 + d) 0

mutual

/-- JSON value parser (serde_json::from_str), fueled: fuel bounds the
nesting depth (serde_json itself imposes a recursion limit); the top level
entry point below supplies fuel exceeding the input length, which no parse
of a flat or nested input can exhaust.  Fractions and exponents are
rejected: no greetd protocol message carries a number. -/
def parseValue : Nat → List Char → Option (Json × List Char)
  | 0, _ => none
  | fuel + 1, input =>
    match skipWs input with
    | [] => none
    | c :: cs =>
      if c = '\x7b' then
        match skipWs cs with
        | '\x7d' :: rest => some (.obj [], rest)
        | rest => (parseMembers fuel rest).map fun p => (.obj p.1, p.2)
      else if c = '[' then
        match skipWs cs with
        | ']' :: rest => some (.arr [], rest)
        | rest => (parseElements fuel rest).map fun p => (.arr p.1, p.2)
      else if c = '"' then
        (parseStringBody (cs.length + 1) cs).map fun p =>
          (Json.str (String.mk p.1), p.2)
      else if c = 't' then
        match cs with
        | 'r' :: 'u' :: 'e' :: rest => some (.bool true, rest)
        | _ => none
      else if c = 'f' then
        match cs with
        | 'a' :: 'l' :: 's' :: 'e' :: rest => some (.bool false, rest)
        | _ => none
      else if c = 'n' then
        match cs with
        | 'u' :: 'l' :: 'l' :: rest => some (.null, rest)
        | _ => none
      else if c = '-' then
        match parseDigits cs with
        | ([], _) => none
        | (d :: ds, rest) =>
          if d = 0 ∧ ds ≠ [] then none
          else some (.num (-(digitsToNat (d :: ds) : Int)), rest)
      else if '0' ≤ c ∧ c ≤ '9' then
        match parseDigits (c :: cs) with
        | ([], _) => none
        | (d :: ds, rest) =>
          if d = 0 ∧ ds ≠ [] then none
          else some (.num (digitsToNat (d :: ds) : Int), rest)
      else none

/-- Members of a JSON object after its opening brace (nonempty case). -/
def parseMembers : Nat → List Char → Option (List (String × Json) × List Char)
  | 0, _ => none
  | fuel + 1, input =>
    match skipWs input with
    | '"' :: cs =>
      match parseStringBody (cs.length + 1) cs with
      | none => none
      | some (key, rest) =>
        match skipWs rest with
        | ':' :: rest2 =>
          match parseValue fuel rest2 with
          | none => none
          | some (v, rest3) =>
            match skipWs rest3 with
            | ',' :: rest4 =>
              (parseMembers fuel rest4).map fun p =>
                ((String.mk key, v) :: p.1, p.2)
            | '\x7d' :: rest4 => some ([(String.mk key, v)], rest4)
            | _ => none
        | _ => none
    | _ => none

/-- Elements of a JSON array after its opening bracket (nonempty case). -/
def parseElements : Nat → List Char → Option (List Json × List Char)
  | 0, _ => none
  | fuel + 1, input =>
    match parseValue fuel input with
    | none => none
    | some (v, rest) =>
      match skipWs rest with
      | ',' :: rest2 => (parseElements fuel rest2).map fun p => (v :: p.1, p.2)
      | ']' :: rest2 => some ([v], rest2)
      | _ => none

end

/-- serde_json::from_str: parse one JSON value and require that nothing
but whitespace follows. -/
def parseJson (s : List Char) : Option Json :=
  match parseValue (s.length + 1) s with
  | some (j, rest) => if skipWs rest = [] then some j else none
  | none => none

/-! ## Wire codec: deserialization of the Response shape -/

/-- Deserialization of ErrorType: the derive carries no rename-all
attribute, so serde accepts exactly the variant names AuthError and
Error. -/
def ErrorType.deserialize : Json → Option ErrorType
  | .str "AuthError" => some .authError
  | .str "Error" => some .error
  | _ => none

/-- Deserialization of AuthMessageType: no rename-all attribute, so serde
accepts exactly Visible, Secret, Info, Error. -/
def AuthMessageType.deserialize : Json → Option AuthMessageType
  | .str "Visible" => some .visible
  | .str "Secret" => some .secret
  | .str "Info" => some .info
  | .str "Error" => some .error
  | _ => none

/-- Deserialization of Response per its serde attributes: an object whose
type field selects the snake case variant; struct variant fields are
looked up by name, unknown fields are ignored, a missing or ill typed
field fails.  (serde rejects duplicate fields; protocol messages have
none, and the first occurrence is used here.) -/
def Response.deserialize (j : Json) : Option Response :=
  match j with
  | .obj fields =>
    match List.lookup "type" fields with
    | some (.str tag) =>
      if tag = "success" then some .success
      else if tag = "error" then
        match List.lookup "error_type" fields,
              List.lookup "description" fields with
        | some et, some (.str d) =>
          (ErrorType.deserialize et).map fun e => .error e d
        | _, _ => none
      else if tag = "auth_message" then
        match List.lookup "auth_message_type" fields,
              List.lookup "auth_message" fields with
        | some amt, some (.str am) =>
          (AuthMessageType.deserialize amt).map fun t => .authMessage t am
        | _, _ => none
      else none
    | _ => none
  | _ => none

/-! ## Wire codec: UTF-8 decoding (std::str::from_utf8) -/

/-- Decode one UTF-8 scalar value from the front of a byte list, rejecting
continuation bytes in lead position, overlong forms, surrogate values and
code points past 0x10FFFF, exactly as std::str::from_utf8 does. -/
def utf8DecodeOne : List Nat → Option (Nat × List Nat)
  | [] => none
  | b :: bs =>
    if b < 128 then some (b, bs)
    else if b < 194 then none
    else if b < 224 then
      match bs with
      | b1 :: bs' =>
        if 128 ≤ b1 ∧ b1 < 192 then some ((b - 192) * 64 + (b1 - 128), bs')
        else none
      | _ => none
    else if b < 240 then
      match bs with
      | b1 :: b2 :: bs' =>
        if 128 ≤ b1 ∧ b1 < 192 ∧ 128 ≤ b2 ∧ b2 < 192 then
          let n := (b - 224) * 4096 + (b1 - 128) * 64 + (b2 - 128)
          if n < 2048 ∨ (55296 ≤ n ∧ n < 57344) then none else some (n, bs')
        else none
      | _ => none
    else if b < 245 then
      match bs with
      | b1 :: b2 :: b3 :: bs' =>
        if 128 ≤ b1 ∧ b1 < 192 ∧ 128 ≤ b2 ∧ b2 < 192 ∧ 128 ≤ b3 ∧ b3 < 192 then
          let n := (b - 240) * 262144 + (b1 - 128) * 4096
                     + (b2 - 128) * 64 + (b3 - 128)
          if n < 65536 ∨ 1114112 ≤ n then none else some (n, bs')
        else none
      | _ => none
    else none

/-- Fueled decoding loop; one scalar consumes at least one byte, so the
byte count is sufficient fuel. -/
def utf8DecodeGo : Nat → List Nat → Option (List Char)
  | _, [] => some []
  | 0, _ :: _ => none
  | fuel + 1, bs =>
    match utf8DecodeOne bs with
    | none => none
    | some (n, rest) => (utf8DecodeGo fuel rest).map fun cs => Char.ofNat n :: cs

/-- std::str::from_utf8 on a byte list, as a character sequence. -/
def utf8Decode (bs : List Nat) : Option (List Char) :=
  utf8DecodeGo bs.length bs

/-! ## Wire codec: frame decoding (greetd.rs lines 87 to 104) -/

/-- Decode failure taxonomy: invalid UTF-8 is a malformed frame, a parse
or shape failure from serde_json is a protocol decode error. -/
inductive DecodeError
  | malformedFrame
  | protocolDecodeError
deriving DecidableEq

/-- greetd_decode_impl from greetd.rs lines 98 to 104. -/
def greetd_decode_impl (bytes : List Nat) : Except DecodeError Response :=
  match utf8Decode bytes with
  | none => .error .malformedFrame
  | some chars =>
    match (parseJson chars).bind Response.deserialize with
    | some res => .ok res
    | none => .error .protocolDecodeError

/-- read_exact over a stream delivered as a list of successive reads
(chunks): take exactly n bytes, spanning as many chunks as needed, and
return them with the unconsumed remainder of the stream; none when the
stream ends first.  The end of the stream is the end of the chunk list. -/
def readExact : Nat → List (List Nat) → Option (List Nat × List (List Nat))
  | 0, cs => some ([], cs)
  | _ + 1, [] => none
  | n + 1, c :: cs =>
    if n + 1 ≤ c.length then some (c.take (n + 1), c.drop (n + 1) :: cs)
    else (readExact (n + 1 - c.length) cs).map fun p => (c ++ p.1, p.2)

/-- greetd_decode from greetd.rs lines 87 to 96 over a chunked stream:
read exactly 4 length prefix bytes, then exactly that many payload bytes,
then decode the payload; none when the stream ends mid frame. -/
def greetd_decode (chunks : List (List Nat)) :
    Option (Except DecodeError Response × List (List Nat)) :=
  match readExact 4 chunks with
  | none => none
  | some (lenBytes, rest) =>
    match readExact (u32FromNeBytes lenBytes) rest with
    | none => none
    | some (payload, rest2) => some (greetd_decode_impl payload, rest2)

/-! ## greetd task setup and the degraded (no daemon) mode
(src/src/main.rs lines 227 to 283) -/

/-- Poll outcome of a single poll_read call. -/
inductive Poll (α : Type)
  | ready (val : α)
  | pending

/-- The connection decision at the top of greetd_task (main.rs lines 232
to 237): a successful connect always yields a live stream; a failed
connect yields the absent stream when the debug flag is set and aborts the
task with the connection error otherwise. -/
inductive GreetdTaskInit
  | fatal
  | stream (conn : Option Unit)
deriving DecidableEq

/-- greetd_task's match on (connect result, cli_args.debug). -/
def greetd_task_init (connected : Bool) (debug : Bool) : GreetdTaskInit :=
  match connected, debug with
  | true, _ => .stream (some ())
  | false, true => .stream none
  | false, false => .fatal

/-- GreetdStream::poll_read (main.rs lines 246 to 257): with no inner
stream the poll is forever pending; with a live stream it delivers the
next read (an empty read meaning end of stream). -/
def poll_read : Option (List (List Nat)) →
    Poll (List Nat × Option (List (List Nat)))
  | none => .pending
  | some [] => .ready ([], some [])
  | some (c :: cs) => .ready (c, some cs)

/-- read_exact driven through poll_read, with fuel bounding the number of
polls: none once fuel runs out while the read is still pending, or on a
zero length read (end of stream). -/
def readExactPoll : Nat → Nat → Option (List (List Nat)) →
    Option (List Nat × Option (List (List Nat)))
  | _, 0, s => some ([], s)
  | 0, _ + 1, _ => none
  | fuel + 1, n + 1, s =>
    match poll_read s with
    | .pending => readExactPoll fuel (n + 1) s
    | .ready ([], _) => none
    | .ready (c, s') =>
      if n + 1 ≤ c.length then
        some (c.take (n + 1), s'.map fun cs => c.drop (n + 1) :: cs)
      else
        (readExactPoll fuel (n + 1 - c.length) s').map fun p => (c ++ p.1, p.2)

/-- The response listener's decode step driven through poll_read: this is
greetd_decode where every byte acquisition goes through the stream's
poll_read, so an absent stream can never complete even the length
prefix. -/
def greetd_decode_poll (fuel : Nat) (s : Option (List (List Nat))) :
    Option (Except DecodeError Response × Option (List (List Nat))) :=
  match readExactPoll fuel 4 s with
  | none => none
  | some (lenBytes, s1) =>
    match readExactPoll fuel (u32FromNeBytes lenBytes) s1 with
    | none => none
    | some (payload, s2) => some (greetd_decode_impl payload, s2)

/-- The request arm of greetd_task's select loop (main.rs lines 271 to
277): a write only happens when the stream is present; with the absent
stream the request is silently dropped.  The result is the list of frames
put on the socket. -/
def dispatch : Option Unit → Request → List (List Nat)
  | none, _ => []
  | some _, req => [greetd_write req]

/-- Decidable equality of decode results, for evaluating the decoder on
concrete frames. -/
instance : DecidableEq (Except DecodeError Response) := fun a b =>
  match a, b with
  | .ok x, .ok y =>
    if h : x = y then isTrue (by rw [h])
    else isFalse fun hh => h (Except.ok.inj hh)
  | .error x, .error y =>
    if h : x = y then isTrue (by rw [h])
    else isFalse fun hh => h (Except.error.inj hh)
  | .ok _, .error _ => isFalse fun hh => Except.noConfusion hh
  | .error _, .ok _ => isFalse fun hh => Except.noConfusion hh

/-! ## Theorems -/

/-- C1: the claim says every (phase, response) pair outside the transition
table leaves the phase unchanged, emits nothing and never panics.  The
code refutes it: its own spec calls these arms out as unimplemented, and
the machine hits a todo panic on AuthMessage or Error delivered in the
Failed phase (main.rs line 163), as does the alternative implementation on
its unimplemented arms (impolite.rs); this theorem evaluates both machines
at such inputs. -/
theorem c1_uncovered_pairs_panic :
    (FormState.loginFailed .authError "denied").update (.authMessage .info "hi") = .panic
    ∧ (FormState.loginFailed .authError "denied").update (.error .error "oops") = .panic
    ∧ impoliteGreetdUpdate "pw" (.failed "denied") (.authMessage .info "hi") = .panic
    ∧ impoliteGreetdUpdate "pw" .pickingDesktop .success = .panic := by
  decide

/-- C3: from every phase other than Idle and Failed (that is, from
CreatedSession and PickingDesktop), an Error response yields the Failed
phase carrying the description, with no outbound action; and the caller
initiated CreateSession (the SubmitLogin intent) always resets the machine
to CreatedSession (the AwaitingSessionCreation phase), sending exactly the
CreateSession request and discarding any failure held in the model. -/
theorem c3_error_to_failed_then_restart (fs : FormState) (et : ErrorType)
    (d : String) (m : Model)
    (h1 : fs ≠ .idle) (h2 : ∀ e s, fs ≠ .loginFailed e s) :
    fs.update (.error et d) = .ok (.loginFailed et d) .none
    ∧ m.update .submitLogin =
        .ok { m with form_state := .createdSession } [.createSession m.username] := by
  refine ⟨?_, rfl⟩
  cases fs with
  | idle => exact absurd rfl h1
  | createdSession => rfl
  | loginFailed e s => exact absurd rfl (h2 e s)
  | pickingDesktop => rfl

/-- Witness for C3 at a concrete phase and a concrete model sitting in the
Failed phase. -/
theorem c3_error_to_failed_then_restart_witness :
    FormState.createdSession.update (.error .authError "bad") =
      .ok (.loginFailed .authError "bad") .none
    ∧ (Model.mk "u" "p" .usernameField (.loginFailed .authError "bad") none []).update
        .submitLogin =
      .ok (Model.mk "u" "p" .usernameField .createdSession none [])
        [.createSession "u"] :=
  c3_error_to_failed_then_restart .createdSession .authError "bad"
    (Model.mk "u" "p" .usernameField (.loginFailed .authError "bad") none [])
    (fun h => FormState.noConfusion h) (fun _ _ h => FormState.noConfusion h)

/-- C5 counterexample: the claim says the Failed phase is terminal, every
response leaving the machine in Failed with no action; but a Success
delivered in Failed moves the machine to PickingDesktop (main.rs lines 160
to 162). -/
theorem c5_counterexample :
    (FormState.loginFailed .authError "bad").update .success =
      .ok .pickingDesktop .none
    ∧ FormState.pickingDesktop ≠ .loginFailed .authError "bad" := by
  decide

/-- C5 amended: in the Failed phase, Success moves the machine to
PickingDesktop with no outbound action; Error and AuthMessage responses
hit unimplemented todo arms and panic; and the caller initiated
CreateSession (SubmitLogin) leaves Failed for CreatedSession.  (So the
only non panicking exits from Failed are the Success response and the
caller restart.) -/
theorem c5_amended_failed_not_terminal (e : ErrorType) (d : String) :
    (FormState.loginFailed e d).update .success = .ok .pickingDesktop .none
    ∧ (∀ et dd, (FormState.loginFailed e d).update (.error et dd) = .panic)
    ∧ (∀ amt am, (FormState.loginFailed e d).update (.authMessage amt am) = .panic)
    ∧ (∀ (m : Model), m.update .submitLogin =
        .ok { m with form_state := .createdSession } [.createSession m.username]) :=
  ⟨rfl, fun _ _ => rfl, fun amt _ => by cases amt <;> rfl, fun _ => rfl⟩

/-- C9 (cancel modelled from the spec, the intent being absent from the
source): from any phase other than Idle and Failed, cancel() transitions
the machine to Idle at once and sends exactly the CancelSession request,
without consuming any Response. -/
theorem c9_cancel_fire_and_forget (m : Model) (h1 : m.form_state ≠ .idle)
    (h2 : ∀ e d, m.form_state ≠ .loginFailed e d) :
    m.cancel.1.form_state = .idle ∧ m.cancel.2 = [.cancelSession] :=
  ⟨rfl, rfl⟩

/-- Witness for C9 at a concrete model in CreatedSession. -/
theorem c9_cancel_fire_and_forget_witness :
    (Model.mk "u" "p" .usernameField .createdSession none []).cancel.1.form_state = .idle
    ∧ (Model.mk "u" "p" .usernameField .createdSession none []).cancel.2 =
        [.cancelSession] :=
  c9_cancel_fire_and_forget
    (Model.mk "u" "p" .usernameField .createdSession none [])
    (fun h => FormState.noConfusion h) (fun _ _ h => FormState.noConfusion h)

/-- C4: starting with the machine Idle, the trace CreateSession (the
SubmitLogin intent), then AuthMessage Secret, then Success, then Success
ends in PickingDesktop (the ReadyToStartSession phase), emitting exactly
the CreateSession request at the first step and the
PostAuthMessageResponse carrying the caller supplied secret (the password
field) in answer to the prompt, and nothing thereafter; and every single
step of the update function, over every model and message, emits at most
one Request, so the machine never emits a second request before the next
delivered Response. -/
theorem c4_trace_and_single_flight (m : Model) (prompt : String)
    (h : m.form_state = .idle) :
    runTrace m [.submitLogin, .greetdRes (.authMessage .secret prompt),
                .greetdRes .success, .greetdRes .success]
      = some ({ m with form_state := .pickingDesktop, focus := .desktopPicker,
                       last_response := some .success },
              [[.createSession m.username],
               [.postAuthMessageResponse (some m.password)], [], []])
    ∧ (∀ (m' : Model) (msg : Msg), (m'.update msg).sent.length ≤ 1) := by
  constructor
  · obtain ⟨u, p, f, fs, lr, ds⟩ := m
    simp only at h
    subst h
    rfl
  · intro m' msg
    cases msg with
    | quit => exact Nat.zero_le 1
    | error => exact Nat.zero_le 1
    | greetdRes res =>
      show ((match m'.form_state.update res with
             | .panic => StepRes.panic
             | .ok form_state eff => _) : StepRes).sent.length ≤ 1
      cases m'.form_state.update res with
      | panic => exact Nat.zero_le 1
      | ok fs eff => cases eff <;> simp [StepRes.sent]
    | fieldUpdate f s => cases f <;> simp [Model.update, StepRes.sent]
    | focusOn f => simp [Model.update, StepRes.sent]
    | submitLogin => simp [Model.update, StepRes.sent]
    | nothing => simp [Model.update, StepRes.sent]
    | startShell => simp [Model.update, StepRes.sent]

/-- Witness for C4 at a concrete idle model. -/
theorem c4_trace_and_single_flight_witness :
    runTrace (Model.mk "bingus" "1234" .usernameField .idle none [])
        [.submitLogin, .greetdRes (.authMessage .secret "Password:"),
         .greetdRes .success, .greetdRes .success]
      = some (Model.mk "bingus" "1234" .desktopPicker .pickingDesktop
                (some .success) [],
              [[.createSession "bingus"],
               [.postAuthMessageResponse (some "1234")], [], []])
    ∧ (∀ (m' : Model) (msg : Msg), (m'.update msg).sent.length ≤ 1) :=
  c4_trace_and_single_flight
    (Model.mk "bingus" "1234" .usernameField .idle none []) "Password:" rfl

/-- C10 counterexample: the claim says every delivered Response sets the
model's last_response; but with the model in the Failed phase an
AuthMessage reaches a todo arm inside FormState::update, the step panics,
and no model (hence no last_response update) is produced. -/
theorem c10_counterexample :
    (Model.mk "u" "p" .usernameField (.loginFailed .authError "bad") none []).update
        (.greetdRes (.authMessage .info "hi")) = .panic
    ∧ ∀ (m' : Model) (sent : List Request),
        (Model.mk "u" "p" .usernameField (.loginFailed .authError "bad") none []).update
            (.greetdRes (.authMessage .info "hi")) ≠ .ok m' sent := by
  refine ⟨rfl, fun m' sent hh => ?_⟩
  rw [show (Model.mk "u" "p" .usernameField (.loginFailed .authError "bad") none []).update
        (.greetdRes (.authMessage .info "hi")) = .panic from rfl] at hh
  exact StepRes.noConfusion hh

/-- C10 amended: whenever processing an inbound Response does not panic,
the resulting model's last_response is exactly that Response (also in
Idle, where the message is otherwise ignored); and when the transition
table prescribes no change (the phase maps to itself with no effect),
every field other than last_response is unchanged and nothing is sent. -/
theorem c10_last_response_frame (m m' : Model) (r : Response)
    (sent : List Request) (h : m.update (.greetdRes r) = .ok m' sent) :
    m'.last_response = some r
    ∧ (m.form_state.update r = .ok m.form_state .none →
        m' = { m with last_response := some r } ∧ sent = []) := by
  simp only [Model.update] at h
  cases hu : m.form_state.update r with
  | panic => rw [hu] at h; exact StepRes.noConfusion h
  | ok fs eff =>
    rw [hu] at h
    cases eff with
    | none =>
      simp only at h
      injection h with hm hs
      refine ⟨by rw [← hm], fun h2 => ?_⟩
      injection h2 with hfs _
      subst hfs
      exact ⟨by rw [← hm], hs.symm⟩
    | sendPassword =>
      simp only at h
      injection h with hm hs
      refine ⟨by rw [← hm], fun h2 => ?_⟩
      injection h2 with _ heff
      exact FormEffect.noConfusion heff
    | focusDesktopPicker =>
      simp only at h
      injection h with hm hs
      refine ⟨by rw [← hm], fun h2 => ?_⟩
      injection h2 with _ heff
      exact FormEffect.noConfusion heff

/-- Witness for C10 at a concrete Idle model receiving Success (the
no change case: only last_response changes). -/
theorem c10_last_response_frame_witness :
    (Model.mk "u" "p" .usernameField .idle (some Response.success) []).last_response =
      some .success
    ∧ (FormState.idle.update .success = .ok .idle .none →
        Model.mk "u" "p" .usernameField .idle (some Response.success) [] =
          { Model.mk "u" "p" .usernameField .idle none [] with
              last_response := some Response.success }
        ∧ ([] : List Request) = []) :=
  c10_last_response_frame
    (Model.mk "u" "p" .usernameField .idle none [])
    (Model.mk "u" "p" .usernameField .idle (some .success) [])
    .success [] rfl

/-- C2: decoding the success frame text yields Success, as claimed; but
the claim's snake case error text is rejected: ErrorType carries no
rename-all serde attribute, so the decoder accepts only the verbatim
variant name AuthError and answers the claimed input with a protocol
decode error.  The third conjunct evaluates the decoder on the verbatim
spelling, confirming where the variant name is actually read from. -/
theorem c2_decode_tag_and_variant_names :
    greetd_decode_impl (utf8Encode "\x7b\"type\":\"success\"\x7d".data) = .ok .success
    ∧ greetd_decode_impl (utf8Encode
        "\x7b\"type\":\"error\",\"error_type\":\"auth_error\",\"description\":\"bad password\"\x7d".data)
        = .error .protocolDecodeError
    ∧ greetd_decode_impl (utf8Encode
        "\x7b\"type\":\"error\",\"error_type\":\"AuthError\",\"description\":\"bad password\"\x7d".data)
        = .ok (.error .authError "bad password")
    ∧ AuthMessageType.deserialize (.str "secret") = none := by
  refine ⟨by decide, by decide, by decide, by decide⟩

/-- Round trip of the native endian length prefix on values below 2 to the
32. -/
theorem u32NeBytes_roundtrip (n : Nat) (h : n < 4294967296) :
    u32FromNeBytes (u32ToNeBytes n) = n := by
  simp only [u32ToNeBytes, u32FromNeBytes]
  omega

/-- C6: encoding CreateSession with username Bingus produces exactly the
45 byte JSON text of the claim prefixed by its 4 byte native endian
length; the prefix value equals the payload byte length for every request
whose payload fits a u32; and every Request variant serializes with the
tag field named type holding its snake case variant name. -/
theorem c6_encode_frame (q : Request) (u : String) (r : Option String)
    (c e : List String)
    (h : (utf8Encode q.serialize).length < 4294967296) :
    greetd_write (.createSession "Bingus")
      = u32ToNeBytes 45
        ++ utf8Encode "\x7b\"type\":\"create_session\",\"username\":\"Bingus\"\x7d".data
    ∧ u32FromNeBytes ((greetd_write q).take 4) = (utf8Encode q.serialize).length
    ∧ (∃ t, Request.serialize (.createSession u) =
        "\x7b\"type\":\"create_session\"".data ++ t)
    ∧ (∃ t, Request.serialize (.postAuthMessageResponse r) =
        "\x7b\"type\":\"post_auth_message_response\"".data ++ t)
    ∧ (∃ t, Request.serialize (.startSession c e) =
        "\x7b\"type\":\"start_session\"".data ++ t)
    ∧ Request.serialize .cancelSession = "\x7b\"type\":\"cancel_session\"\x7d".data := by
  refine ⟨by decide, ?_, ?_, ?_, ?_, by decide⟩
  · show u32FromNeBytes ((u32ToNeBytes (utf8Encode q.serialize).length
        ++ utf8Encode q.serialize).take 4) = _
    rw [List.take_left' (by rfl), u32NeBytes_roundtrip _ h]
  · refine ⟨",\"username\":".data ++ jsonString u ++ "\x7d".data, ?_⟩
    show "\x7b\"type\":\"create_session\",\"username\":".data
        ++ jsonString u ++ "\x7d".data = _
    rw [show ("\x7b\"type\":\"create_session\",\"username\":".data : List Char)
          = "\x7b\"type\":\"create_session\"".data ++ ",\"username\":".data from by decide]
    simp [List.append_assoc]
  · refine ⟨",\"response\":".data
      ++ (match r with | none => "null".data | some s => jsonString s)
      ++ "\x7d".data, ?_⟩
    show "\x7b\"type\":\"post_auth_message_response\",\"response\":".data
        ++ _ ++ "\x7d".data = _
    rw [show ("\x7b\"type\":\"post_auth_message_response\",\"response\":".data : List Char)
          = "\x7b\"type\":\"post_auth_message_response\"".data
            ++ ",\"response\":".data from by decide]
    simp [List.append_assoc]
  · refine ⟨",\"command\":".data ++ jsonStringArray c ++ ",\"env\":".data
      ++ jsonStringArray e ++ "\x7d".data, ?_⟩
    show "\x7b\"type\":\"start_session\",\"command\":".data ++ jsonStringArray c
        ++ ",\"env\":".data ++ jsonStringArray e ++ "\x7d".data = _
    rw [show ("\x7b\"type\":\"start_session\",\"command\":".data : List Char)
          = "\x7b\"type\":\"start_session\"".data ++ ",\"command\":".data from by decide]
    simp [List.append_assoc]

/-- Witness for C6 at the CreateSession request of the claim. -/
theorem c6_encode_frame_witness :
    greetd_write (.createSession "Bingus")
      = u32ToNeBytes 45
        ++ utf8Encode "\x7b\"type\":\"create_session\",\"username\":\"Bingus\"\x7d".data
    ∧ u32FromNeBytes ((greetd_write (.createSession "Bingus")).take 4)
        = (utf8Encode (Request.createSession "Bingus").serialize).length
    ∧ (∃ t, Request.serialize (.createSession "Bingus") =
        "\x7b\"type\":\"create_session\"".data ++ t)
    ∧ (∃ t, Request.serialize (.postAuthMessageResponse (some "1234")) =
        "\x7b\"type\":\"post_auth_message_response\"".data ++ t)
    ∧ (∃ t, Request.serialize (.startSession ["/bin/sh"] []) =
        "\x7b\"type\":\"start_session\"".data ++ t)
    ∧ Request.serialize .cancelSession = "\x7b\"type\":\"cancel_session\"\x7d".data :=
  c6_encode_frame (.createSession "Bingus") "Bingus" (some "1234")
    ["/bin/sh"] [] (by decide)

/-- On the absent stream every poll is pending, so a read of a positive
byte count never completes, whatever the poll budget. -/
theorem readExactPoll_none (fuel n : Nat) :
    readExactPoll fuel (n + 1) none = none := by
  induction fuel with
  | zero => rfl
  | succ f ih => simpa [readExactPoll, poll_read] using ih

/-- C8: greetd_task's connection decision gates the degraded mode on the
debug flag: a failed connect with debug set yields the absent stream, a
failed connect without debug aborts the task with the error, and a
successful connect always yields the live stream.  On the absent stream
the response listener's decode step never completes (poll_read stays
pending forever, whatever the poll budget), so no Response is ever
yielded, and the dispatcher drops every write. -/
theorem c8_degraded_mode (fuel : Nat) (req : Request) (d : Bool) :
    greetd_task_init false true = .stream none
    ∧ greetd_task_init false false = .fatal
    ∧ greetd_task_init true d = .stream (some ())
    ∧ greetd_decode_poll fuel none = none
    ∧ dispatch none req = [] := by
  refine ⟨rfl, rfl, rfl, ?_, rfl⟩
  show (match readExactPoll fuel 4 none with
        | none => none
        | some (lenBytes, s1) => _) = (none : Option _)
  rw [show (4 : Nat) = 3 + 1 from rfl, readExactPoll_none]

/-- Reading exactly n bytes from a chunked stream depends only on the
stream's byte content: through flattening it agrees with taking n bytes
from the contiguous buffer. -/
theorem readExact_flatten (n : Nat) (cs : List (List Nat)) :
    (readExact n cs).map (fun p => (p.1, p.2.flatten))
      = if n ≤ cs.flatten.length
        then some (cs.flatten.take n, cs.flatten.drop n)
        else none := by
  induction cs generalizing n with
  | nil =>
    cases n with
    | zero => simp [readExact]
    | succ k => simp [readExact]
  | cons c cs ih =>
    cases n with
    | zero => simp [readExact]
    | succ k =>
      simp only [readExact, List.flatten_cons]
      by_cases h : k + 1 ≤ c.length
      · have hlen : k + 1 ≤ (c ++ cs.flatten).length := by
          rw [List.length_append]; omega
        rw [if_pos h, if_pos hlen]
        simp only [Option.map_some', List.flatten_cons]
        rw [List.take_append_of_le_length h, List.drop_append_of_le_length h]
      · rw [if_neg h]
        have ih' := ih (k + 1 - c.length)
        by_cases h2 : k + 1 - c.length ≤ cs.flatten.length
        · rw [if_pos h2] at ih'
          obtain ⟨⟨a, b⟩, hab, heq⟩ := Option.map_eq_some'.mp ih'
          simp only at heq
          obtain ⟨ha, hb⟩ := Prod.mk.injEq .. |>.mp heq
          rw [hab]
          simp only [Option.map_some']
          have hlen : k + 1 ≤ (c ++ cs.flatten).length := by
            rw [List.length_append]; omega
          rw [if_pos hlen, List.take_append_eq_append_take,
              List.drop_append_eq_append_drop,
              List.take_of_length_le (by omega),
              show c.drop (k + 1) = [] from List.drop_eq_nil_iff.mpr (by omega)]
          simp [ha, hb]
        · rw [if_neg h2] at ih'
          rw [Option.map_eq_none'.mp ih']
          simp only [Option.map_none']
          rw [if_neg (by rw [List.length_append]; omega)]

/-- Frame decoding from a chunked stream, expressed through the stream's
contiguous byte content. -/
theorem greetd_decode_spec (cs : List (List Nat)) :
    (greetd_decode cs).map (fun p => (p.1, p.2.flatten))
      = if 4 ≤ cs.flatten.length then
          (if u32FromNeBytes (cs.flatten.take 4) ≤ (cs.flatten.drop 4).length then
            some (greetd_decode_impl
                    ((cs.flatten.drop 4).take (u32FromNeBytes (cs.flatten.take 4))),
                  (cs.flatten.drop 4).drop (u32FromNeBytes (cs.flatten.take 4)))
          else none)
        else none := by
  have h4 := readExact_flatten 4 cs
  cases hc : readExact 4 cs with
  | none =>
    rw [hc, Option.map_none'] at h4
    have hlen : ¬ 4 ≤ cs.flatten.length := by
      intro hl; rw [if_pos hl] at h4; exact Option.noConfusion h4
    rw [if_neg hlen]
    unfold greetd_decode
    rw [hc]
    rfl
  | some v =>
    obtain ⟨lenB, r1⟩ := v
    rw [hc, Option.map_some'] at h4
    have hlen : 4 ≤ cs.flatten.length := by
      by_contra hl; rw [if_neg hl] at h4; exact Option.noConfusion h4
    rw [if_pos hlen] at h4
    injection h4 with h4'
    have hB : lenB = cs.flatten.take 4 := congrArg Prod.fst h4'
    have hR : r1.flatten = cs.flatten.drop 4 := congrArg Prod.snd h4'
    subst hB
    rw [if_pos hlen]
    have hi := readExact_flatten (u32FromNeBytes (cs.flatten.take 4)) r1
    rw [hR] at hi
    unfold greetd_decode
    rw [hc]
    show Option.map (fun p => (p.1, p.2.flatten))
        ((match readExact (u32FromNeBytes (cs.flatten.take 4)) r1 with
          | none => none
          | some (payload, rest2) => some (greetd_decode_impl payload, rest2) :
          Option (Except DecodeError Response × List (List Nat)))) = _
    cases hc2 : readExact (u32FromNeBytes (cs.flatten.take 4)) r1 with
    | none =>
      rw [hc2, Option.map_none'] at hi
      have hlen2 : ¬ u32FromNeBytes (cs.flatten.take 4) ≤ (cs.flatten.drop 4).length := by
        intro hl; rw [if_pos hl] at hi; exact Option.noConfusion hi
      rw [if_neg hlen2]
      rfl
    | some w =>
      obtain ⟨pl, r2⟩ := w
      rw [hc2, Option.map_some'] at hi
      have hlen2 : u32FromNeBytes (cs.flatten.take 4) ≤ (cs.flatten.drop 4).length := by
        by_contra hl; rw [if_neg hl] at hi; exact Option.noConfusion hi
      rw [if_pos hlen2] at hi
      injection hi with hi'
      have hp : pl = (cs.flatten.drop 4).take (u32FromNeBytes (cs.flatten.take 4)) :=
        congrArg Prod.fst hi'
      have hr2 : r2.flatten = (cs.flatten.drop 4).drop
          (u32FromNeBytes (cs.flatten.take 4)) := congrArg Prod.snd hi'
      rw [if_pos hlen2]
      simp only [Option.map_some']
      rw [hp, hr2]

/-- C7: decoding a frame delivered in arbitrarily many chunks (1 byte
chunks included) yields the same decoded Response, and leaves the same
remaining bytes, as decoding the same bytes as one contiguous buffer; and
on a well formed frame the decoder consumes exactly the 4 length prefix
bytes and then exactly that many payload bytes, decoding just the payload
and leaving the rest of the stream untouched. -/
theorem c7_chunked_equals_contiguous (cs : List (List Nat))
    (payload rest : List Nat) (h : payload.length < 4294967296) :
    (greetd_decode cs).map (fun p => (p.1, p.2.flatten))
      = (greetd_decode [cs.flatten]).map (fun p => (p.1, p.2.flatten))
    ∧ (greetd_decode [u32ToNeBytes payload.length ++ payload ++ rest]).map
        (fun p => (p.1, p.2.flatten))
      = some (greetd_decode_impl payload, rest) := by
  have h4 : (u32ToNeBytes payload.length).length = 4 := rfl
  constructor
  · rw [greetd_decode_spec cs, greetd_decode_spec [cs.flatten]]
    simp
  · rw [greetd_decode_spec]
    have hfl : ([u32ToNeBytes payload.length ++ payload ++ rest] :
        List (List Nat)).flatten
        = u32ToNeBytes payload.length ++ (payload ++ rest) := by
      simp [List.append_assoc]
    rw [hfl, List.take_left' h4, List.drop_left' h4,
        u32NeBytes_roundtrip _ h,
        if_pos (by rw [List.length_append, h4]; omega),
        if_pos (by rw [List.length_append]; omega),
        List.take_left, List.drop_left]

/-- Witness for C7: a frame carrying the payload bytes 1, 2, 3 chopped
into chunks, and the exact read shape at that payload. -/
theorem c7_chunked_equals_contiguous_witness :
    (greetd_decode [[1], [2]]).map (fun p => (p.1, p.2.flatten))
      = (greetd_decode [([[1], [2]] : List (List Nat)).flatten]).map
          (fun p => (p.1, p.2.flatten))
    ∧ (greetd_decode [u32ToNeBytes ([1, 2, 3] : List Nat).length
          ++ [1, 2, 3] ++ [9]]).map (fun p => (p.1, p.2.flatten))
      = some (greetd_decode_impl [1, 2, 3], [9]) :=
  c7_chunked_equals_contiguous [[1], [2]] [1, 2, 3] [9] (by decide)
